import Mathlib

/-! ## Generic helpers: `Except` traversal and Python dict model -/

deriving instance DecidableEq for Except

/-- Structural `mapM` for `Except`, used to model Python loops that build a
list and propagate exceptions. -/
def exMapM {α β : Type} (f : α → Except String β) : List α → Except String (List β)
  | [] => .ok []
  | a :: l => do
    let b ← f a
    let bs ← exMapM f l
    .ok (b :: bs)

/-- Python `d[k]` lookup on an association-list dict (first matching key). -/
def pyLookup {α : Type} : List (String × α) → String → Option α
  | [], _ => none
  | (k', v) :: rest, k => if k' = k then some v else pyLookup rest k

/-- Python `d[k] = v`: replace the value of an existing key in place, else
append the new key at the end. -/
def insertEntry {α : Type} : List (String × α) → String → α → List (String × α)
  | [], k, v => [(k, v)]
  | (k', v') :: rest, k, v =>
      if k' = k then (k, v) :: rest else (k', v') :: insertEntry rest k v

/-- Python `d.update(e)`: assign every entry of `e` into `d`, in order. -/
def pyUpdate {α : Type} (d e : List (String × α)) : List (String × α) :=
  e.foldl (fun acc p => insertEntry acc p.1 p.2) d

/-- Python `k in d` / `d.get(k)` with a default. -/
def pyLookupD {α : Type} (d : List (String × α)) (k : String) (dfl : α) : α :=
  (pyLookup d k).getD dfl

/-- Python `d[k]` raising `KeyError` when the key is absent. -/
def pyRequire {α : Type} (d : List (String × α)) (k : String) : Except String α :=
  match pyLookup d k with
  | some v => .ok v
  | none => .error ("KeyError: " ++ k)

/-! ## List and string utilities mirroring Python primitives -/

/-- Python `range(a, b)` over integers, as the list `[a, a+1, …, b-1]`. -/
def intRange (a b : Int) : List Int :=
  (List.range (b - a).toNat).map (fun (i : Nat) => a + (i : Int))

/-- Substring membership test (Python `sub in s`) on character lists. -/
def containsSub : List Char → List Char → Bool
  | [], pat => pat.isEmpty
  | h :: t, pat => pat.isPrefixOf (h :: t) || containsSub t pat

/-- Python `sub in s` for strings. -/
def strContains (s pat : String) : Bool :=
  containsSub s.toList pat.toList

/-- Test for the anchored regular expression `^https?://`
(`re.match(r'^https?://', s)`). -/
def matchesHttp (s : String) : Bool :=
  "http://".toList.isPrefixOf s.toList || "https://".toList.isPrefixOf s.toList

/-- Python `s.endswith('/')`. -/
def endsWithSlash (s : String) : Bool :=
  s.toList.reverse.head? = some '/'

/-- Split a character list at the first occurrence of `c`: returns the part
before it and the part after it, or `none` if `c` does not occur. -/
def splitAtChar (c : Char) : List Char → Option (List Char × List Char)
  | [] => none
  | h :: t =>
    if h = c then some ([], t)
    else match splitAtChar c t with
      | some (pre, post) => some (h :: pre, post)
      | none => none

/-- Fuel-driven worker for `pyReplace`.  Fuel is decremented once per
consumed character; the initial fuel of `length + 1` can never run out. -/
def pyReplaceGo (pat rep : List Char) : Nat → List Char → List Char
  | _, [] => []
  | 0, s => s
  | fuel + 1, c :: rest =>
      if pat.isPrefixOf (c :: rest) then
        rep ++ pyReplaceGo pat rep fuel ((c :: rest).drop pat.length)
      else
        c :: pyReplaceGo pat rep fuel rest

/-- Python `s.replace(pat, rep)`: leftmost, non-overlapping, all
occurrences.  The source only calls it with non-empty patterns
(`'$RepresentationID$'` and `'$$'`); an empty pattern is mapped to the
identity. -/
def pyReplace (s pat rep : String) : String :=
  if pat.toList.isEmpty then s
  else String.mk (pyReplaceGo pat.toList rep.toList (s.toList.length + 1) s.toList)

/-! ## TemplateExpander: `MPDParser.prepare_template` (source lines 101-121)
and the `%` formatting operator it prepares templates for. -/

/-- Source lines 107-114: double every `%` that is outside a `$...$` span,
toggling the `in_template` flag at each `$`. -/
def escapePercents : List Char → Bool → List Char
  | [], _ => []
  | c :: rest, inTemplate =>
      if c = '$' then c :: escapePercents rest (!inTemplate)
      else if c = '%' && !inTemplate then c :: c :: escapePercents rest inTemplate
      else c :: escapePercents rest inTemplate

/-- Try each identifier in order at the head of `s` for a `$Name$` match
(regular expression `\$(N1|N2|…)\$`); returns the identifier and the rest of
the input after the match. -/
def findSimpleMatch (ids : List String) (s : List Char) : Option (String × List Char) :=
  match s with
  | '$' :: rest =>
      ids.findSome? fun id =>
        if (id.toList ++ ['$']).isPrefixOf rest then
          some (id, rest.drop (id.toList.length + 1))
        else none
  | _ => none

/-- Source line 118: `re.sub(r'\$(N1|…)\$', r'%(\1)d', t)` — scan left to
right, rewriting each `$Name$` to `%(Name)d`. -/
def subSimpleGo (ids : List String) : Nat → List Char → List Char
  | _, [] => []
  | 0, s => s
  | fuel + 1, c :: rest =>
      match findSimpleMatch ids (c :: rest) with
      | some (id, after) =>
          ('%' :: '(' :: id.toList ++ [')', 'd']) ++ subSimpleGo ids fuel after
      | none => c :: subSimpleGo ids fuel rest

/-- Try each identifier in order at the head of `s` for a `$Name%spec$`
match (regular expression `\$(N1|…)%([^$]+)\$`); returns the identifier, the
format spec and the rest of the input. -/
def findSpecMatch (ids : List String) (s : List Char) : Option (String × List Char × List Char) :=
  match s with
  | '$' :: rest =>
      ids.findSome? fun id =>
        if (id.toList ++ ['%']).isPrefixOf rest then
          match splitAtChar '$' (rest.drop (id.toList.length + 1)) with
          | some (spec, after) => if spec.isEmpty then none else some (id, spec, after)
          | none => none
        else none
  | _ => none

/-- Source line 119: `re.sub(r'\$(N1|…)%([^$]+)\$', r'%(\1)\2', t)`. -/
def subSpecGo (ids : List String) : Nat → List Char → List Char
  | _, [] => []
  | 0, s => s
  | fuel + 1, c :: rest =>
      match findSpecMatch ids (c :: rest) with
      | some (id, spec, after) =>
          ('%' :: '(' :: id.toList ++ [')']) ++ spec ++ subSpecGo ids fuel after
      | none => c :: subSpecGo ids fuel rest

/-- `MPDParser.prepare_template(template_name, identifiers)`, source lines
101-121, as a function of the identifier set, the representation id
(`self.representation_id`, raising `TypeError` when it is `None` because
`str.replace` rejects a `None` argument) and the raw template text.

Line 120 of the source reads `t.replace('$$', '$')` and discards the result
(strings are immutable in Python), so the returned template still contains
every literal `$$`; the discarded call is kept here as a dead `let`. -/
def prepareTemplate (identifiers : List String) (representation_id : Option String)
    (tmpl : String) : Except String String := do
  let t1 := String.mk (escapePercents tmpl.toList false)
  let rid ← match representation_id with
    | some r => Except.ok r
    | none => Except.error "TypeError: replace() argument 2 must be str, not None"
  let t2 := pyReplace t1 "$RepresentationID$" rid
  let t3 := String.mk (subSimpleGo identifiers (t2.toList.length + 1) t2.toList)
  let t4 := String.mk (subSpecGo identifiers (t3.toList.length + 1) t3.toList)
  let _discarded := pyReplace t4 "$$" "$"
  .ok t4

/-- Zero-padded / space-padded rendering of an integer for a `%…d`
conversion whose collected spec is a (possibly empty) digit string, e.g.
`%(Number)05d`.  An empty spec renders plainly. -/
def formatD (spec : List Char) (v : Int) : List Char :=
  let zeroPad := spec.head? = some '0'
  let widthDigits := if zeroPad then spec.drop 1 else spec
  let width := widthDigits.foldl (fun n c => n * 10 + c.toNat - '0'.toNat) 0
  let digits := (toString v).toList
  if digits.length ≥ width then digits
  else if zeroPad then
    match digits with
    | '-' :: ds => '-' :: List.replicate (width - 1 - ds.length) '0' ++ ds
    | ds => List.replicate (width - ds.length) '0' ++ ds
  else List.replicate (width - digits.length) ' ' ++ digits

/-- Collect a digit-only format spec followed by a supported conversion
character (`d` or `s`); other conversions are outside the subset of `%`
formatting this model covers (the prepared templates the claims exercise
only produce these). -/
def collectSpec : List Char → Option (List Char × Char × List Char)
  | [] => none
  | c :: rest =>
      if c = 'd' || c = 's' then some ([], c, rest)
      else if c.isDigit then
        match collectSpec rest with
        | some (spec, conv, after) => some (c :: spec, conv, after)
        | none => none
      else none

/-- Render one conversion: `%…d` requires an integer (Python raises
`TypeError` on `None`); `%…s` stringifies, rendering `None` as `"None"`. -/
def renderConv (conv : Char) (spec : List Char) (v : Option Int) : Except String (List Char) :=
  if conv = 'd' then
    match v with
    | some i => .ok (formatD spec i)
    | none => .error "TypeError: %d format: a number is required, not NoneType"
  else
    match v with
    | some i => .ok (toString i).toList
    | none => .ok "None".toList

/-- Fuel-driven core of the Python `%` operator with a mapping, supporting
`%%`, and `%(name)` followed by a digit spec and a `d`/`s` conversion.  A
name missing from the mapping raises `KeyError`, exactly as in Python. -/
def pyFormatGo (m : List (String × Option Int)) : Nat → List Char → Except String (List Char)
  | 0, _ => .error "ValueError: formatting ran out of fuel"
  | _ + 1, [] => .ok []
  | fuel + 1, c :: rest =>
      if c = '%' then
        match rest with
        | '%' :: rest2 => do
            let out ← pyFormatGo m fuel rest2
            .ok ('%' :: out)
        | '(' :: rest2 =>
            match splitAtChar ')' rest2 with
            | none => .error "ValueError: incomplete format key"
            | some (nameCs, rest3) =>
                match collectSpec rest3 with
                | none => .error "ValueError: unsupported format character"
                | some (spec, conv, rest4) => do
                    let v ← (match pyLookup m (String.mk nameCs) with
                      | some v => Except.ok v
                      | none => Except.error ("KeyError: " ++ String.mk nameCs))
                    let piece ← renderConv conv spec v
                    let out ← pyFormatGo m fuel rest4
                    .ok (piece ++ out)
        | _ => .error "ValueError: unsupported format character"
      else do
        let out ← pyFormatGo m fuel rest
        .ok (c :: out)

/-- Python `template % mapping` (the substitution pass run on a prepared
template). -/
def pyFormat (tmpl : String) (m : List (String × Option Int)) : Except String String := do
  let out ← pyFormatGo m (tmpl.toList.length + 1) tmpl.toList
  .ok (String.mk out)

/-! ## Data model: manifest tree and merged multisegment context -/

/-- One raw `S` element of a `SegmentTimeline`, attributes as optional
pre-lexed integers (`@t`, `@d`, `@r`). -/
structure SRaw where
  t : Option Int
  d : Option Int
  r : Option Int

deriving Repr, DecidableEq

/-- One parsed timeline entry, as stored by `extract_common` into
`ms_info['s']` (source lines 50-55): `t` defaults to 0, `d` is mandatory,
`r` defaults to 0. -/
structure SegS where
  t : Int
  d : Int
  r : Int

deriving Repr, DecidableEq

/-- The attributes and `SegmentTimeline` child that `extract_common`
(source lines 40-64) reads off a `SegmentList` or `SegmentTemplate` node. -/
structure SegCommon where
  timeline : Option (List SRaw)
  startNumber : Option Int
  timescale : Option Int
  segDuration : Option Rat

deriving Repr, DecidableEq

/-- A `SegmentList` node: common attributes, an optional `Initialization`
child (whose own `@sourceURL` may be missing, a `KeyError`), and the
`SegmentURL` children with their optional `@media` attributes. -/
structure SegmentListNode where
  common : SegCommon
  initialization_child : Option (Option String)
  segment_urls : List (Option String)

deriving Repr, DecidableEq

/-- A `SegmentTemplate` node: common attributes, `@media`,
`@initialization`, and an optional `Initialization` child fallback. -/
structure SegmentTemplateNode where
  common : SegCommon
  media : Option String
  initialization_attr : Option String
  initialization_child : Option (Option String)

deriving Repr, DecidableEq

/-- The multisegment-bearing children of a Period / AdaptationSet /
Representation element, as probed by `extract_multisegment_info`
(source lines 71-93). -/
structure ElementMS where
  segment_list : Option SegmentListNode
  segment_template : Option SegmentTemplateNode

deriving Repr, DecidableEq

/-- A `BaseURL` child element: its text and the vendor
`{http://youtube.com/yt/2012/10/10}contentLength` attribute (source line
165), kept as raw text for `int_or_none`. -/
structure BaseURLNode where
  text : String
  contentLength : Option String

deriving Repr, DecidableEq

/-- A `Representation` element. -/
structure RepNode where
  drm : Bool
  attrib : List (String × String)
  ms : ElementMS
  baseURL : Option BaseURLNode

deriving Repr, DecidableEq

/-- An `AdaptationSet` element. -/
structure ASetNode where
  drm : Bool
  attrib : List (String × String)
  ms : ElementMS
  baseURL : Option BaseURLNode
  reps : List RepNode

deriving Repr, DecidableEq

/-- A `Period` element; `@duration` is stored pre-parsed (the ISO-8601
duration text parser `parse_duration` is an external collaborator). -/
structure PeriodNode where
  duration : Option Rat
  ms : ElementMS
  baseURL : Option BaseURLNode
  asets : List ASetNode

deriving Repr, DecidableEq

/-- The manifest document root. -/
structure MPDDoc where
  mediaPresentationDuration : Option Rat
  baseURL : Option BaseURLNode
  periods : List PeriodNode

deriving Repr, DecidableEq

/-- The merged multisegment context dict `ms_info`.  `start_number` and
`timescale` are seeded at the Period level (source lines 129-132) and are
therefore always present; every other key is optional. -/
structure MSInfo where
  start_number : Int := 1
  timescale : Int := 1
  total_number : Option Int := none
  s : Option (List SegS) := none
  segment_duration : Option Rat := none
  media : Option String := none
  initialization : Option String := none
  initialization_url : Option String := none
  segment_urls : Option (List String) := none

deriving Repr, DecidableEq

/-- One emitted fragment dict: the locator string, whether its dict key is
`'url'` (absolute) or `'path'`, and the `'duration'` entry — `none` when
the key is absent altogether, `some none` when present with value `None`,
`some (some q)` when present with a number. -/
structure Fragment where
  loc : String
  isUrl : Bool
  dur : Option (Option Rat)

deriving Repr, DecidableEq

/-- Values stored in a format-descriptor dict. -/
inductive PyVal where
  | str : String → PyVal
  | int : Int → PyVal
  | rat : Rat → PyVal
  | pynone : PyVal
  | frags : List Fragment → PyVal

deriving Repr, DecidableEq

/-- A format descriptor, as a Python dict. -/
abbrev FmtDict := List (String × PyVal)

/-- The caller-supplied per-representation-id override map `formats_dict`. -/
abbrev FormatsDict := List (String × FmtDict)

/-! ## Python numeric helpers (`float_or_none`, `int_or_none`) -/

/-- Python float division; a zero divisor raises `ZeroDivisionError`
(which `float_or_none` does not catch). -/
def pyFloatDiv (x y : Rat) : Except String Rat :=
  if y = 0 then .error "ZeroDivisionError: float division by zero"
  else .ok (x / y)

/-- `float_or_none(v, scale)` from `youtube_dl/utils.py`: `None` stays
`None`, otherwise `float(v) / scale`. -/
def floatOrNone (v : Option Rat) (scale : Rat) : Except String (Option Rat) :=
  match v with
  | none => .ok none
  | some x => do
      let q ← pyFloatDiv x scale
      .ok (some q)

/-- Python `float(x)` applied to a value that may be `None` (raises
`TypeError` on `None`), used at source line 209 on `self.period_duration`. -/
def pyFloatOfOpt (v : Option Rat) : Except String Rat :=
  match v with
  | some x => .ok x
  | none => .error "TypeError: float() argument must be a string or a number, not NoneType"

/-- Decimal digit accumulator for `pyIntOfString`. -/
def pyNatOfChars (cs : List Char) : Option Nat :=
  match cs with
  | [] => none
  | _ =>
      cs.foldl (fun acc c =>
        acc.bind fun n =>
          let d := c.toNat
          if 48 ≤ d ∧ d ≤ 57 then some (n * 10 + (d - 48)) else none) (some 0)

/-- Python `int(s)` on attribute text: an optional sign followed by decimal
digits (whitespace tolerance and other `int()` niceties are out of scope
for the attribute values the manifests carry). -/
def pyIntOfString (s : String) : Option Int :=
  match s.toList with
  | '-' :: rest => (pyNatOfChars rest).map fun n => -(n : Int)
  | '+' :: rest => (pyNatOfChars rest).map fun n => (n : Int)
  | cs => (pyNatOfChars cs).map fun n => (n : Int)

/-- `int_or_none` from `youtube_dl/utils.py` applied to an optional
attribute string. -/
def intOrNone (v : Option String) : Option Int :=
  v.bind pyIntOfString

/-! ## MultisegmentInfoResolver: `extract_common`, `extract_Initialization`,
`extract_multisegment_info` (source lines 40-93) -/

/-- The `for s in s_e` loop of `extract_common` (source lines 47-55):
accumulates `total_number` as `Σ (1 + r)` and the parsed entry list; a
missing mandatory `@d` raises `KeyError`. -/
def parseSList : List SRaw → Except String (Int × List SegS)
  | [] => .ok (0, [])
  | s :: rest => do
      let r := s.r.getD 0
      let d ← match s.d with
        | some d => Except.ok d
        | none => Except.error "KeyError: d"
      let (total, entries) ← parseSList rest
      .ok (1 + r + total, { t := s.t.getD 0, d := d, r := r } :: entries)

/-- `MPDParser.extract_common(source, ms_info)`, source lines 40-64. -/
def extractCommon (src : SegCommon) (ms : MSInfo) : Except String MSInfo := do
  let ms1 ← match src.timeline with
    | some sList =>
        if sList.isEmpty then Except.ok ms
        else do
          let (total, entries) ← parseSList sList
          Except.ok { ms with total_number := some total, s := some entries }
    | none => Except.ok ms
  let ms2 := match src.startNumber with
    | some n => { ms1 with start_number := n }
    | none => ms1
  let ms3 := match src.timescale with
    | some t => { ms2 with timescale := t }
    | none => ms2
  match src.segDuration with
  | some d => .ok { ms3 with segment_duration := some d }
  | none => .ok ms3

/-- `MPDParser.extract_Initialization`, source lines 66-69: an
`Initialization` child present without `@sourceURL` raises `KeyError`. -/
def extractInitialization (child : Option (Option String)) (ms : MSInfo) :
    Except String MSInfo :=
  match child with
  | none => .ok ms
  | some none => .error "KeyError: sourceURL"
  | some (some u) => .ok { ms with initialization_url := some u }

/-- `MPDParser.extract_multisegment_info(element, ms_parent_info)`, source
lines 71-93: copy the parent context, then overlay `SegmentList` data if
present, else `SegmentTemplate` data if present. -/
def extractMultisegmentInfo (el : ElementMS) (parent : MSInfo) : Except String MSInfo :=
  match el.segment_list with
  | some sl => do
      let ms1 ← extractCommon sl.common parent
      let ms2 ← extractInitialization sl.initialization_child ms1
      if sl.segment_urls.isEmpty then .ok ms2
      else do
        let urls ← exMapM (fun u => match u with
          | some m => Except.ok m
          | none => Except.error "KeyError: media") sl.segment_urls
        .ok { ms2 with segment_urls := some urls }
  | none =>
      match el.segment_template with
      | some st => do
          let ms1 ← extractCommon st.common parent
          let ms2 := match st.media with
            | some m => { ms1 with media := some m }
            | none => ms1
          match st.initialization_attr with
          | some i => .ok { ms2 with initialization := some i }
          | none => extractInitialization st.initialization_child ms2
      | none => .ok parent

/-! ## FragmentEnumerator: source lines 198-282 -/

/-- The nested `add_segment_url()` closure (source lines 228-238): expand
the prepared media template with the current `Time`/`Bandwidth`/`Number`
cursor values and attach `duration = float_or_none(segment_d, timescale)`. -/
def addSegmentUrl (tmpl : String) (isUrl : Bool) (bw : Option Int) (timescale : Int)
    (time num d : Int) : Except String Fragment := do
  let url ← pyFormat tmpl [("Time", some time), ("Bandwidth", bw), ("Number", some num)]
  let dOpt ← floatOrNone (some (d : Rat)) (timescale : Rat)
  .ok { loc := url, isUrl := isUrl, dur := some dOpt }

/-- The `for r in range(s.get('r', 0))` repeat loop of Mode B (source lines
245-248): each iteration advances `segment_time` by `segment_d`, emits, and
increments `segment_number`.  Returns the emitted fragments and the final
time/number cursors. -/
def modeBRepeats (tmpl : String) (isUrl : Bool) (bw : Option Int) (timescale : Int)
    (d : Int) : Nat → Int → Int → Except String (List Fragment × Int × Int)
  | 0, time, num => .ok ([], time, num)
  | k + 1, time, num => do
      let t1 := time + d
      let f ← addSegmentUrl tmpl isUrl bw timescale t1 num d
      let (fs, tF, nF) ← modeBRepeats tmpl isUrl bw timescale d k t1 (num + 1)
      .ok (f :: fs, tF, nF)

/-- The Mode B timeline walk (source lines 240-249): for each `S` entry,
a non-zero `t` resets the running `segment_time` (`s.get('t') or
segment_time`), one fragment is emitted, the repeat loop runs, and
`segment_time` advances by `segment_d` once more after the repeats. -/
def modeBRun (tmpl : String) (isUrl : Bool) (bw : Option Int) (timescale : Int) :
    List SegS → Int → Int → Except String (List Fragment)
  | [], _, _ => .ok []
  | s :: rest, time, num => do
      let t0 := if s.t ≠ 0 then s.t else time
      let f ← addSegmentUrl tmpl isUrl bw timescale t0 num s.d
      let (fs, t1, n1) ← modeBRepeats tmpl isUrl bw timescale s.d s.r.toNat t0 (num + 1)
      let frest ← modeBRun tmpl isUrl bw timescale rest (t1 + s.d) n1
      .ok (f :: fs ++ frest)

/-- Python `urls[idx]` (raises `IndexError` when out of range). -/
def pyListIndex (urls : List String) (idx : Nat) : Except String String :=
  match urls.get? idx with
  | some u => .ok u
  | none => .error "IndexError: list index out of range"

/-- The `for r in range(s.get('r', 0) + 1)` inner loop of Mode C (source
lines 259-265).  Building the fragment dict evaluates the key expression
`location_key(segment_uri)` — an unqualified reference to the static method
`MPDParser.location_key`, which is not in scope inside `parse`, so the
first iteration raises `NameError` right after the list indexing. -/
def modeCInner (urls : List String) (idx : Nat) : Nat → Except String Nat
  | 0 => .ok idx
  | _ + 1 => do
      let _uri ← pyListIndex urls idx
      .error "NameError: name location_key is not defined"

/-- The Mode C outer loop over `S` entries (source lines 254-266): computes
`duration = float_or_none(s['d'], timescale)` and then runs the inner
pairing loop. -/
def modeCGo (urls : List String) (timescale : Int) :
    List SegS → Nat → Except String (List Fragment)
  | [], _ => .ok []
  | s :: rest, idx => do
      let _dur ← floatOrNone (some (s.d : Rat)) (timescale : Rat)
      let idx1 ← modeCInner urls idx (s.r + 1).toNat
      modeCGo urls timescale rest idx1

/-- The explicit-URL branch without a timeline (source lines 267-282):
computes the constant `segment_duration / timescale` first, then builds one
fragment per URL — whose dict key expression is again the unqualified
`location_key`, raising `NameError` on the first URL. -/
def modeCPrime (urls : List String) (ms : MSInfo) : Except String (List Fragment) := do
  let _sd ← match ms.segment_duration with
    | some sd => floatOrNone (some sd) (ms.timescale : Rat)
    | none => Except.ok none
  match urls with
  | [] => .ok []
  | _ :: _ => .error "NameError: name location_key is not defined"

/-- The Mode A bookkeeping of source lines 205-209 and the `total_number`
lookup of line 218: returns the constant fragment duration (`None` unless
freshly computed) and the effective total segment count. -/
def modeATotals (ms : MSInfo) (periodDuration : Option Rat) :
    Except String (Option Rat × Int) :=
  match ms.total_number, ms.segment_duration with
  | none, some sdRaw => do
      let sdv ← pyFloatDiv sdRaw (ms.timescale : Rat)
      let pdv ← pyFloatOfOpt periodDuration
      let q ← pyFloatDiv pdv sdv
      .ok (some sdv, Int.ceil q)
  | some t, _ => .ok (none, t)
  | none, none => .error "KeyError: total_number"

/-- The fragment-mode dispatch and enumeration, source lines 198-282,
operating on the fully merged `representation_ms_info`.  Returns
`some fragments` when a `'fragments'` key is produced, `none` when the
Representation is treated as unfragmented direct media. -/
def computeFragments (ms : MSInfo) (rid : Option String) (bw : Option Int)
    (periodDuration : Option Rat) : Except String (Option (List Fragment)) :=
  match ms.segment_urls, ms.media with
  | none, some m => do
      let tmpl ← prepareTemplate ["Number", "Bandwidth", "Time"] rid m
      let isUrl := matchesHttp tmpl
      if strContains tmpl "%(Number" && ms.s.isNone then do
        let (sd, total) ← modeATotals ms periodDuration
        let frs ← exMapM (fun n => do
            let url ← pyFormat tmpl [("Number", some n), ("Bandwidth", bw)]
            Except.ok ({ loc := url, isUrl := isUrl, dur := some sd } : Fragment))
          (intRange ms.start_number (total + ms.start_number))
        .ok (some frs)
      else
        match ms.s with
        | none => .error "KeyError: s"
        | some sList => do
            let frs ← modeBRun tmpl isUrl bw ms.timescale sList 0 ms.start_number
            .ok (some frs)
  | some urls, _ =>
      match ms.s with
      | some sList => do
          let frs ← modeCGo urls ms.timescale sList 0
          .ok (some frs)
      | none => do
          let frs ← modeCPrime urls ms
          .ok (some frs)
  | none, none => .ok none

/-! ## BaseURLResolver: source lines 151-161 -/

/-- The `for element in (representation, adaptation_set, period, mpd_doc)`
walk of source lines 151-157: prefix each present `BaseURL` text to the
accumulator and stop as soon as the accumulated string matches
`^https?://`. -/
def resolveBaseUrlAux : List (Option String) → String → String
  | [], acc => acc
  | none :: rest, acc => resolveBaseUrlAux rest acc
  | some t :: rest, acc =>
      let acc1 := t ++ acc
      if matchesHttp acc1 then acc1 else resolveBaseUrlAux rest acc1

/-- Base URL resolution starting from the empty accumulator, with the
levels listed leaf-first: Representation, AdaptationSet, Period,
Document. -/
def resolveBaseUrl (levels : List (Option String)) : String :=
  resolveBaseUrlAux levels ""

/-- Source lines 158-161: apply the externally supplied manifest base URL
when the walked result is still relative.  The guard
`not self.mpd_base_url.endswith('/') and not base_url.startswith('/')`
references the undefined local name `base_url` (the attribute is
`self.base_url`), so whenever the left conjunct is true — the external base
URL does not end with `'/'` — evaluating the right conjunct raises
`NameError`.  `mpd_base_url` empty models a falsy (`None` or `''`) value. -/
def applyMpdBase (mpd_base_url : String) (base_url : String) : Except String String :=
  if mpd_base_url = "" then .ok base_url
  else if matchesHttp base_url then .ok base_url
  else if endsWithSlash mpd_base_url then .ok (mpd_base_url ++ base_url)
  else .error "NameError: name base_url is not defined"

/-! ## DocumentWalker and FormatAssembler: `MPDParser.parse`
(source lines 123-315) -/

/-- Python `str(x)` on an optional string, rendering `None` as `"None"`
(the `'%s-%s' % (mpd_id, representation_id)` case at source line 168). -/
def pyStrOfOpt : Option String → String
  | some s => s
  | none => "None"

/-- Source line 168: the `format_id` value.  A falsy `mpd_id` (modelled as
the empty string) selects the bare representation id. -/
def formatIdVal (mpd_id : String) (rid : Option String) : PyVal :=
  if mpd_id ≠ "" then .str (mpd_id ++ "-" ++ pyStrOfOpt rid)
  else
    match rid with
    | some r => .str r
    | none => .pynone

/-- Source line 176: the `language` field, with the four sentinel codes
suppressed to `None`. -/
def langVal (lang : Option String) : PyVal :=
  match lang with
  | some l => if l = "mul" || l = "und" || l = "zxx" || l = "mis" then .pynone else .str l
  | none => .pynone

/-- Lift an optional integer into a dict value (`None` for absence). -/
def optIntVal : Option Int → PyVal
  | some i => .int i
  | none => .pynone

/-- Lift an optional rational into a dict value (`None` for absence). -/
def optRatVal : Option Rat → PyVal
  | some q => .rat q
  | none => .pynone

/-- Python `mime_type.split('/')[0]`. -/
def contentTypeOf (mime : String) : String :=
  String.mk (mime.toList.takeWhile (fun c => c ≠ '/'))

/-- The external collaborators and scalar parameters of a parse:
manifest id, manifest URL, external manifest base URL (empty string models
a falsy value), and the out-of-scope helpers `mimetype2ext` and
`parse_codecs` as opaque function parameters. -/
structure WalkCtx where
  mpd_id : String
  mpd_url : String
  mpd_base_url : String
  mimetype2ext : String → String
  parse_codecs : Option String → List (String × PyVal)

/-- Source line 310: `self.formats_dict.get(self.representation_id, {})`. -/
def fdEntry (fd : FormatsDict) (rid : Option String) : FmtDict :=
  match rid with
  | some r => pyLookupD fd r []
  | none => []

/-- Source lines 310-311: `full_info = formats_dict.get(rid, {}).copy()`
followed by `full_info.update(f)` — the override entry is copied (copying
an association-list value is the identity here; the call site records that
the stored entry object itself is never aliased or written) and the freshly
computed fields are applied on top. -/
def mergeFullInfo (fd : FormatsDict) (rid : Option String) (f : FmtDict) : FmtDict :=
  pyUpdate (fdEntry fd rid) f

/-- The state-passing form of the override merge: the only operation ever
performed on `formats_dict` is the read in `fdEntry`, so the dict state is
returned unchanged. -/
def mergeFullInfoSt (fd : FormatsDict) (rid : Option String) (f : FmtDict) :
    FmtDict × FormatsDict :=
  (mergeFullInfo fd rid f, fd)

/-- Per-Representation processing (source lines 139-303), up to but not
including the override merge: returns `none` for a skipped Representation
(DRM-protected, `text` MIME, or unknown MIME category) and otherwise the
representation id together with the fully assembled descriptor dict. -/
def processRepCore (ctx : WalkCtx) (doc : MPDDoc) (period : PeriodNode)
    (periodDuration : Option Rat) (aset : ASetNode) (asetMS : MSInfo) (rep : RepNode) :
    Except String (Option (Option String × FmtDict)) :=
  if rep.drm then .ok none
  else do
    let attrib := pyUpdate aset.attrib rep.attrib
    let mime ← pyRequire attrib "mimeType"
    let ctype := contentTypeOf mime
    if ctype = "text" then .ok none
    else if ctype = "video" || ctype = "audio" then do
      let walked := resolveBaseUrl [rep.baseURL.map (fun b => b.text),
        aset.baseURL.map (fun b => b.text), period.baseURL.map (fun b => b.text),
        doc.baseURL.map (fun b => b.text)]
      let base_url ← applyMpdBase ctx.mpd_base_url walked
      let rid := pyLookup attrib "id"
      let lang := pyLookup attrib "lang"
      let filesize := intOrNone (rep.baseURL.bind (fun b => b.contentLength))
      let bw := intOrNone (pyLookup attrib "bandwidth")
      let tbr ← floatOrNone (bw.map (fun b => (b : Rat))) 1000
      let f0 : FmtDict := [
        ("format_id", formatIdVal ctx.mpd_id rid),
        ("manifest_url", .str ctx.mpd_url),
        ("ext", .str (ctx.mimetype2ext mime)),
        ("width", optIntVal (intOrNone (pyLookup attrib "width"))),
        ("height", optIntVal (intOrNone (pyLookup attrib "height"))),
        ("tbr", optRatVal tbr),
        ("asr", optIntVal (intOrNone (pyLookup attrib "audioSamplingRate"))),
        ("fps", optIntVal (intOrNone (pyLookup attrib "frameRate"))),
        ("language", langVal lang),
        ("format_note", .str ("DASH " ++ ctype)),
        ("filesize", optIntVal filesize),
        ("container", .str (ctx.mimetype2ext mime ++ "_dash"))]
      let f1 := pyUpdate f0 (ctx.parse_codecs (pyLookup attrib "codecs"))
      let repMS ← extractMultisegmentInfo rep.ms asetMS
      let repMS2 ← match repMS.initialization with
        | some initTmpl => do
            let t ← prepareTemplate ["Bandwidth"] rid initTmpl
            let iu ← pyFormat t [("Bandwidth", bw)]
            Except.ok { repMS with initialization_url := some iu }
        | none => Except.ok repMS
      let fragsOpt ← computeFragments repMS2 rid bw periodDuration
      match fragsOpt with
      | some frs =>
          let urlVal := if ctx.mpd_url ≠ "" then ctx.mpd_url else base_url
          let fA := pyUpdate f1 [("url", .str urlVal),
            ("fragment_base_url", .str base_url),
            ("fragments", .frags []),
            ("protocol", .str "http_dash_segments")]
          match repMS2.initialization_url with
          | some iu =>
              let fB := if urlVal = "" then insertEntry fA "url" (.str iu) else fA
              let initFrag : Fragment := { loc := iu, isUrl := matchesHttp iu, dur := none }
              .ok (some (rid, insertEntry fB "fragments" (.frags (initFrag :: frs))))
          | none => .ok (some (rid, insertEntry fA "fragments" (.frags frs)))
      | none => .ok (some (rid, insertEntry f1 "url" (.str base_url)))
    else .ok none

/-- The Representation loop of source lines 138-312, threading the
`formats_dict` state explicitly so that any mutation of it would be
observable. -/
def processReps (ctx : WalkCtx) (doc : MPDDoc) (period : PeriodNode)
    (periodDuration : Option Rat) (aset : ASetNode) (asetMS : MSInfo) :
    List RepNode → FormatsDict → Except String (List FmtDict) × FormatsDict
  | [], fd => (.ok [], fd)
  | r :: rs, fd =>
      match processRepCore ctx doc period periodDuration aset asetMS r with
      | .error e => (.error e, fd)
      | .ok none => processReps ctx doc period periodDuration aset asetMS rs fd
      | .ok (some (rid, f)) =>
          let (full, fd1) := mergeFullInfoSt fd rid f
          match processReps ctx doc period periodDuration aset asetMS rs fd1 with
          | (.error e, fd2) => (.error e, fd2)
          | (.ok l, fd2) => (.ok (full :: l), fd2)

/-- Per-AdaptationSet processing (source lines 133-137): DRM-protected sets
are skipped before any context extraction. -/
def processASet (ctx : WalkCtx) (doc : MPDDoc) (period : PeriodNode)
    (periodDuration : Option Rat) (periodMS : MSInfo) (aset : ASetNode)
    (fd : FormatsDict) : Except String (List FmtDict) × FormatsDict :=
  if aset.drm then (.ok [], fd)
  else
    match extractMultisegmentInfo aset.ms periodMS with
    | .error e => (.error e, fd)
    | .ok asetMS => processReps ctx doc period periodDuration aset asetMS aset.reps fd

/-- The AdaptationSet loop of a Period. -/
def processASets (ctx : WalkCtx) (doc : MPDDoc) (period : PeriodNode)
    (periodDuration : Option Rat) (periodMS : MSInfo) :
    List ASetNode → FormatsDict → Except String (List FmtDict) × FormatsDict
  | [], fd => (.ok [], fd)
  | a :: as, fd =>
      match processASet ctx doc period periodDuration periodMS a fd with
      | (.error e, fd1) => (.error e, fd1)
      | (.ok l1, fd1) =>
          match processASets ctx doc period periodDuration periodMS as fd1 with
          | (.error e, fd2) => (.error e, fd2)
          | (.ok l2, fd2) => (.ok (l1 ++ l2), fd2)

/-- Per-Period processing (source lines 126-132): the effective duration is
the Period `@duration` when truthy (non-`None`, non-zero), else the
manifest-level `mediaPresentationDuration`; the Period context is seeded
with `start_number = 1`, `timescale = 1`. -/
def processPeriod (ctx : WalkCtx) (doc : MPDDoc) (mpdDuration : Option Rat)
    (period : PeriodNode) (fd : FormatsDict) : Except String (List FmtDict) × FormatsDict :=
  let periodDuration := match period.duration with
    | some d => if d ≠ 0 then some d else mpdDuration
    | none => mpdDuration
  match extractMultisegmentInfo period.ms {} with
  | .error e => (.error e, fd)
  | .ok periodMS => processASets ctx doc period periodDuration periodMS period.asets fd

/-- The Period loop. -/
def processPeriods (ctx : WalkCtx) (doc : MPDDoc) (mpdDuration : Option Rat) :
    List PeriodNode → FormatsDict → Except String (List FmtDict) × FormatsDict
  | [], fd => (.ok [], fd)
  | p :: ps, fd =>
      match processPeriod ctx doc mpdDuration p fd with
      | (.error e, fd1) => (.error e, fd1)
      | (.ok l1, fd1) =>
          match processPeriods ctx doc mpdDuration ps fd1 with
          | (.error e, fd2) => (.error e, fd2)
          | (.ok l2, fd2) => (.ok (l1 ++ l2), fd2)

/-- `MPDParser.parse(self)`, source lines 123-315: walk every Period of the
document and accumulate format descriptors, threading the caller-supplied
`formats_dict` state. -/
def parseMPD (ctx : WalkCtx) (doc : MPDDoc) (fd : FormatsDict) :
    Except String (List FmtDict) × FormatsDict :=
  processPeriods ctx doc doc.mediaPresentationDuration doc.periods fd

/-! ## Specification-side definitions

These two definitions are written from the words of the specification
(§4.3 Mode B), not from the source, and exist only to be compared with the
source-derived enumerator: they enumerate the `(segment_time,
segment_number, duration_numerator)` triples the specification prescribes. -/

/-- Triples for the `repeat_count` repeats of one `SegmentInstant`, per the
specification: each repeat first advances `segment_time` by the instant's
duration, then emits; `segment_number` increments by one per emitted
fragment. -/
def specRepeatTriples (d : Int) : Nat → Int → Int → List (Int × Int × Int)
  | 0, _, _ => []
  | k + 1, time, num => (time + d, num, d) :: specRepeatTriples d k (time + d) (num + 1)

/-- The specification's Mode B walk: a running `segment_time` (caller
starts it at 0) and `segment_number` (caller starts it at `start_number`);
for each instant a non-zero `start_time` becomes the new `segment_time`;
one triple is emitted, then the repeats, and after the repeats
`segment_time` advances by the instant's duration once more. -/
def specModeBWalk : List SegS → Int → Int → List (Int × Int × Int)
  | [], _, _ => []
  | s :: rest, time, num =>
      let t0 := if s.t ≠ 0 then s.t else time
      ((t0, num, s.d) :: specRepeatTriples s.d s.r.toNat t0 (num + 1))
        ++ specModeBWalk rest (t0 + ((s.r.toNat : Int) + 1) * s.d) (num + 1 + (s.r.toNat : Int))

/-! ## Reachability of a malformed `S` entry (claim C8) -/

/-- A timeline list containing an `S` entry with no `@d` attribute. -/
def timelineMissingD (tl : Option (List SRaw)) : Bool :=
  (tl.getD []).any fun s => s.d.isNone

/-- The element carries a malformed timeline at the position
`extract_multisegment_info` actually reads: the `SegmentList` child if
present, else the `SegmentTemplate` child. -/
def elementBad (e : ElementMS) : Bool :=
  match e.segment_list with
  | some sl => timelineMissingD sl.common.timeline
  | none =>
      match e.segment_template with
      | some st => timelineMissingD st.common.timeline
      | none => false

/-- The walk reaches `extract_multisegment_info` on this Representation:
it is not DRM-protected and its merged `mimeType` has a `video` or `audio`
top-level category. -/
def repReachesExtract (aset : ASetNode) (rep : RepNode) : Bool :=
  !rep.drm &&
    (match pyLookup (pyUpdate aset.attrib rep.attrib) "mimeType" with
     | some m => contentTypeOf m = "video" || contentTypeOf m = "audio"
     | none => false)

/-- The AdaptationSet exposes a malformed timeline to the walk: it is not
DRM-protected and the bad entry sits on the set itself or on a reached
Representation inside it. -/
def asetBad (a : ASetNode) : Bool :=
  !a.drm && (elementBad a.ms || a.reps.any fun r => repReachesExtract a r && elementBad r.ms)

/-- The Period exposes a malformed timeline to the walk. -/
def periodBad (p : PeriodNode) : Bool :=
  elementBad p.ms || p.asets.any asetBad

/-- Some malformed timeline in the document sits at a position the walk
reads: at Period level, at a non-DRM AdaptationSet, or at a non-DRM
video/audio Representation inside a non-DRM AdaptationSet. -/
def reachedBadS (doc : MPDDoc) : Bool :=
  doc.periods.any periodBad

/-- Uncurried emission of one Mode B fragment from a
`(segment_time, segment_number, duration_numerator)` triple. -/
def emitFragment (tmpl : String) (isUrl : Bool) (bw : Option Int) (timescale : Int)
    (x : Int × Int × Int) : Except String Fragment :=
  addSegmentUrl tmpl isUrl bw timescale x.1 x.2.1 x.2.2

/-! ## Concrete manifests and contexts used in the claim instances -/

/-- A parse context with no manifest id / URL / base URL and trivial
external helpers. -/
def ctx9 : WalkCtx :=
  { mpd_id := "", mpd_url := "", mpd_base_url := "",
    mimetype2ext := fun _ => "mp4", parse_codecs := fun _ => [] }

/-- An element with no segment-addressing children. -/
def emptyMS : ElementMS := { segment_list := none, segment_template := none }

/-- First Representation with `@id="480p"` (854 px wide, direct URL). -/
def rep9a : RepNode :=
  { drm := false, attrib := [("id", "480p"), ("width", "854")], ms := emptyMS,
    baseURL := some { text := "http://a/v1.mp4", contentLength := none } }

/-- Second Representation with the same `@id="480p"` (640 px wide). -/
def rep9b : RepNode :=
  { drm := false, attrib := [("id", "480p"), ("width", "640")], ms := emptyMS,
    baseURL := some { text := "http://a/v2.mp4", contentLength := none } }

/-- AdaptationSet holding `rep9a`. -/
def aset9a : ASetNode :=
  { drm := false, attrib := [("mimeType", "video/mp4")], ms := emptyMS,
    baseURL := none, reps := [rep9a] }

/-- AdaptationSet holding `rep9b`. -/
def aset9b : ASetNode :=
  { drm := false, attrib := [("mimeType", "video/mp4")], ms := emptyMS,
    baseURL := none, reps := [rep9b] }

/-- Period with two AdaptationSets whose Representations share an id. -/
def period9 : PeriodNode :=
  { duration := none, ms := emptyMS, baseURL := none, asets := [aset9a, aset9b] }

/-- Manifest for the id-non-uniqueness / override-merge instance. -/
def doc9 : MPDDoc :=
  { mediaPresentationDuration := none, baseURL := none, periods := [period9] }

/-- Caller-supplied override map for representation id `480p`. -/
def fd9 : FormatsDict := [("480p", [("note", .str "ovr"), ("width", .int 99)])]

/-- Expected merged descriptor for `rep9a`: the override entry with the
fresh fields applied on top (the fresh `width` wins, the override-only
`note` survives). -/
def d9a : FmtDict :=
  [("note", .str "ovr"), ("width", .int 854), ("format_id", .str "480p"),
   ("manifest_url", .str ""), ("ext", .str "mp4"), ("height", .pynone),
   ("tbr", .pynone), ("asr", .pynone), ("fps", .pynone), ("language", .pynone),
   ("format_note", .str "DASH video"), ("filesize", .pynone),
   ("container", .str "mp4_dash"), ("url", .str "http://a/v1.mp4")]

/-- Expected merged descriptor for `rep9b`. -/
def d9b : FmtDict :=
  [("note", .str "ovr"), ("width", .int 640), ("format_id", .str "480p"),
   ("manifest_url", .str ""), ("ext", .str "mp4"), ("height", .pynone),
   ("tbr", .pynone), ("asr", .pynone), ("fps", .pynone), ("language", .pynone),
   ("format_note", .str "DASH video"), ("filesize", .pynone),
   ("container", .str "mp4_dash"), ("url", .str "http://a/v2.mp4")]

/-- A `SegmentTimeline` whose single `S` entry lacks the mandatory `@d`. -/
def badCommon : SegCommon :=
  { timeline := some [{ t := none, d := none, r := none }],
    startNumber := none, timescale := none, segDuration := none }

/-- A `SegmentTemplate` carrying the malformed timeline. -/
def badTmpl : SegmentTemplateNode :=
  { common := badCommon, media := some "s-$Number$.mp4",
    initialization_attr := none, initialization_child := none }

/-- Element wrapper for the malformed `SegmentTemplate`. -/
def badElMS : ElementMS := { segment_list := none, segment_template := some badTmpl }

/-- A DRM-protected AdaptationSet containing the malformed timeline. -/
def aset8drm : ASetNode :=
  { drm := true, attrib := [("mimeType", "video/mp4")], ms := badElMS,
    baseURL := none, reps := [rep9a] }

/-- Period holding only the DRM-protected malformed AdaptationSet. -/
def period8drm : PeriodNode :=
  { duration := none, ms := emptyMS, baseURL := none, asets := [aset8drm] }

/-- Manifest that contains a `SegmentTimeline` with a `@d`-less `S` entry,
but only inside a DRM-protected AdaptationSet that the walk skips. -/
def doc8drm : MPDDoc :=
  { mediaPresentationDuration := none, baseURL := none, periods := [period8drm] }

/-- Period carrying the malformed timeline directly (always reached). -/
def period8r : PeriodNode :=
  { duration := none, ms := badElMS, baseURL := none, asets := [] }

/-- Manifest whose Period-level timeline has a `@d`-less `S` entry. -/
def doc8reached : MPDDoc :=
  { mediaPresentationDuration := none, baseURL := none, periods := [period8r] }

/-! ## Supporting lemmas -/

@[simp] theorem exMapM_nil {α β : Type} (f : α → Except String β) : exMapM f [] = .ok [] := rfl

@[simp] theorem exbind_ok {α β : Type} (a : α) (f : α → Except String β) :
    (Except.ok a : Except String α) >>= f = f a := rfl

@[simp] theorem exbind_err {α β : Type} (e : String) (f : α → Except String β) :
    (Except.error e : Except String α) >>= f = .error e := rfl

@[simp] theorem exmap_ok {α β : Type} (a : α) (f : α → β) :
    f <$> (Except.ok a : Except String α) = .ok (f a) := rfl

@[simp] theorem exmap_err {α β : Type} (e : String) (f : α → β) :
    f <$> (Except.error e : Except String α) = .error e := rfl

theorem exMapM_cons {α β : Type} (f : α → Except String β) (a : α) (l : List α) :
    exMapM f (a :: l) =
      (f a).bind fun b => (exMapM f l).bind fun bs => .ok (b :: bs) := rfl

@[simp] theorem exceptBind_eq_bind {α β : Type} (x : Except String α) (f : α → Except String β) :
    x >>= f = x.bind f := rfl

@[simp] theorem exceptbind_ok {α β : Type} (a : α) (f : α → Except String β) :
    (Except.ok a : Except String α).bind f = f a := rfl

@[simp] theorem exceptbind_err {α β : Type} (e : String) (f : α → Except String β) :
    (Except.error e : Except String α).bind f = .error e := rfl

theorem exMapM_append {α β : Type} (f : α → Except String β) (l₁ l₂ : List α) :
    exMapM f (l₁ ++ l₂) =
      (exMapM f l₁).bind fun a => (exMapM f l₂).bind fun b => .ok (a ++ b) := by
  induction l₁ with
  | nil =>
    simp only [List.nil_append, exMapM_nil, exceptbind_ok]
    cases exMapM f l₂ <;> rfl
  | cons a l ih =>
    simp only [List.cons_append, exMapM_cons, ih]
    cases f a <;> simp only [exceptbind_ok, exceptbind_err]
    cases exMapM f l <;> simp only [exceptbind_ok, exceptbind_err]
    cases exMapM f l₂ <;> simp

@[simp] theorem pyLookup_nil {α : Type} (k : String) : pyLookup ([] : List (String × α)) k = none := rfl

theorem pyLookup_insertEntry {α : Type} (d : List (String × α)) (k k' : String) (v : α) :
    pyLookup (insertEntry d k v) k' = if k = k' then some v else pyLookup d k' := by
  induction d with
  | nil => simp [insertEntry, pyLookup]
  | cons p rest ih =>
    obtain ⟨k₀, v₀⟩ := p
    by_cases h₀ : k₀ = k
    · subst h₀
      by_cases h₁ : k₀ = k'
      · subst h₁
        simp [insertEntry, pyLookup]
      · simp [insertEntry, pyLookup, h₁]
    · by_cases h₁ : k₀ = k'
      · subst h₁
        have hkk : ¬ k = k₀ := fun h => h₀ h.symm
        simp [insertEntry, pyLookup, h₀, hkk]
      · simp [insertEntry, pyLookup, h₀, h₁, ih]

theorem pyLookup_eq_some_mem {α : Type} {l : List (String × α)} {k : String} {v : α}
    (h : pyLookup l k = some v) : k ∈ l.map Prod.fst := by
  induction l with
  | nil => simp [pyLookup] at h
  | cons p rest ih =>
    obtain ⟨k₀, v₀⟩ := p
    simp only [pyLookup] at h
    by_cases hk : k₀ = k
    · simp [hk]
    · simp only [if_neg hk] at h
      simp [ih h]

/-- The dict-update law: after `d.update(e)` a key defined by `e` holds the
value `e` gives it (keys of `e` assumed pairwise distinct, as they are in
every dict literal the code builds), and a key not defined by `e` keeps the
value it had in `d`. -/
theorem pyLookup_pyUpdate {α : Type} (d e : List (String × α)) (k : String)
    (hnodup : (e.map Prod.fst).Nodup) :
    pyLookup (pyUpdate d e) k =
      match pyLookup e k with
      | some v => some v
      | none => pyLookup d k := by
  induction e generalizing d with
  | nil => rfl
  | cons p rest ih =>
    obtain ⟨k₀, v₀⟩ := p
    simp only [List.map_cons, List.nodup_cons] at hnodup
    have hstep : pyUpdate d ((k₀, v₀) :: rest) = pyUpdate (insertEntry d k₀ v₀) rest := rfl
    rw [hstep, ih _ hnodup.2]
    by_cases hk : k₀ = k
    · subst hk
      have hrest : pyLookup rest k₀ = none := by
        cases hl : pyLookup rest k₀ with
        | none => rfl
        | some v => exact absurd (pyLookup_eq_some_mem hl) hnodup.1
      simp [pyLookup, hrest, pyLookup_insertEntry]
    · cases hl : pyLookup rest k with
      | some v => simp [pyLookup, hk, hl]
      | none => simp [pyLookup, hk, hl, pyLookup_insertEntry]

@[simp] theorem intRange_length (a b : Int) : (intRange a b).length = (b - a).toNat := by
  simp [intRange]

/-! ## Claim theorems -/

/-- C4.  Claimed: every literal `$$` in a template accepted by the expander
appears as a single `$` in the output (spec step 5).  The source line 120
(`t.replace('$$', '$')`) discards the replaced string, so the output of
`prepare_template` on `"a$$b"` still contains the literal `$$`: the
collapse never happens. -/
theorem template_dollar_collapse_discarded :
    prepareTemplate ["Number", "Bandwidth", "Time"] (some "rid") "a$$b" = .ok "a$$b" ∧
      strContains "a$$b" "$$" = true := by
  exact ⟨rfl, rfl⟩

/-- C3.  Claimed: in explicit-URL + timeline mode, the URLs are paired in
order with the expanded timeline.  On the concrete input of the claim —
three URLs, timeline `[{d:4,r:2}]`, timescale 2 — the branch at source
lines 250-266 instead raises `NameError`, because the fragment dict key
expression at line 262 references the unqualified name `location_key`,
which is not in scope inside `parse` (the method is only reachable as
`MPDParser.location_key`).  The per-instant duration `4 / 2 = 2.0` is
computed just before the failure, as the second conjunct records. -/
theorem segment_url_timeline_pairing_name_error :
    computeFragments { segment_urls := some ["u1", "u2", "u3"], s := some [⟨0, 4, 2⟩], timescale := 2 } (some "r") none none =
      .error "NameError: name location_key is not defined" ∧
      floatOrNone (some (4 : Rat)) ((2 : Int) : Rat) = .ok (some 2) := by
  constructor
  · rfl
  · norm_num [floatOrNone, pyFloatDiv]

/-- C5.  Claimed: in explicit-URL mode with no timeline, a zero computed
duration omits the duration field (the falsy-zero quirk).  The branch at
source lines 267-282 computes `segment_duration / timescale = 0` (second
conjunct) but then raises `NameError` while building the first fragment
dict, whose key expression at line 277 references the unqualified name
`location_key`; the quirk itself is unreachable. -/
theorem zero_duration_branch_name_error :
    computeFragments { segment_urls := some ["u1"], segment_duration := some 0 }
        (some "r") none none =
      .error "NameError: name location_key is not defined" ∧
      floatOrNone (some (0 : Rat)) ((1 : Int) : Rat) = .ok (some 0) := by
  constructor
  · rfl
  · norm_num [floatOrNone, pyFloatDiv]

/-- C6.  The base URL resolver walks Representation, AdaptationSet, Period,
Document in that order, prefixing each present `BaseURL` text to the
accumulated string and stopping as soon as the accumulated string matches
`^https?://` (source lines 151-157).  Conjuncts: the concrete instance of
the claim; the short-circuit step; the plain prefix step; and the skip of
an absent level. -/
theorem base_url_concatenation_law :
    resolveBaseUrl [some "seg/", some "a/", some "http://host/", none] = "http://host/a/seg/" ∧
      (∀ (t : String) (rest : List (Option String)) (acc : String),
        matchesHttp (t ++ acc) = true → resolveBaseUrlAux (some t :: rest) acc = t ++ acc) ∧
      (∀ (t : String) (rest : List (Option String)) (acc : String),
        matchesHttp (t ++ acc) = false →
          resolveBaseUrlAux (some t :: rest) acc = resolveBaseUrlAux rest (t ++ acc)) ∧
      (∀ (rest : List (Option String)) (acc : String),
        resolveBaseUrlAux (none :: rest) acc = resolveBaseUrlAux rest acc) := by
  refine ⟨rfl, ?_, ?_, ?_⟩
  · intro t rest acc h
    simp [resolveBaseUrlAux, h]
  · intro t rest acc h
    simp [resolveBaseUrlAux, h]
  · intro rest acc
    rfl

/-- Witness for C6: the short-circuit conjunct applied at a concrete
absolute Representation-level URL. -/
theorem base_url_concatenation_law_witness :
    resolveBaseUrlAux [some "http://h/"] "" = "http://h/" := by
  have h := base_url_concatenation_law.2.1 "http://h/" [] "" (by rfl)
  simpa using h

/-- C7.  Claimed: when the walked base URL is still relative and an
external manifest base URL was supplied, the resolver returns the external
base applied as a prefix, whether or not the external base ends with `/`.
Source lines 158-161: with a trailing `/` the prefix is applied, but
without one the guard evaluates the undefined local name `base_url`
(the attribute is `self.base_url`) and raises `NameError`. -/
theorem mpd_base_url_prefix_name_error :
    applyMpdBase "http://ext" "seg/" = .error "NameError: name base_url is not defined" ∧
      applyMpdBase "http://ext/" "seg/" = .ok "http://ext/seg/" := by
  exact ⟨rfl, rfl⟩

/-- C2.  Number-addressing (Mode A) count law: for a merged context with a
`Number`-referencing media template, no timeline, no explicit segment URLs,
no inherited `total_number` and a set `segment_duration`, the enumerator
(source lines 205-218) emits, in order, one fragment per segment number in
`range(start_number, ceil(period_duration / (segment_duration / timescale))
+ start_number)`, every fragment carrying the constant duration
`segment_duration / timescale`; and that range has exactly
`ceil(period_duration / (segment_duration / timescale))` elements. -/
theorem number_modeA_count_law (ms : MSInfo) (rid : Option String) (bw : Option Int)
    (pdv : Rat) (m tmpl : String) (sd : Rat)
    (h1 : ms.segment_urls = none) (h2 : ms.media = some m)
    (h3 : prepareTemplate ["Number", "Bandwidth", "Time"] rid m = .ok tmpl)
    (h4 : strContains tmpl "%(Number" = true) (h5 : ms.s = none)
    (h6 : ms.total_number = none) (h7 : ms.segment_duration = some sd)
    (h8 : (ms.timescale : Rat) ≠ 0) (h9 : sd / (ms.timescale : Rat) ≠ 0) :
    computeFragments ms rid bw (some pdv) =
      (exMapM (fun n => (pyFormat tmpl [("Number", some n), ("Bandwidth", bw)]).bind fun url =>
          Except.ok (Fragment.mk url (matchesHttp tmpl) (some (some (sd / (ms.timescale : Rat))))))
        (intRange ms.start_number
          (Int.ceil (pdv / (sd / (ms.timescale : Rat))) + ms.start_number))).bind
        (fun frs => Except.ok (some frs)) ∧
      (intRange ms.start_number
          (Int.ceil (pdv / (sd / (ms.timescale : Rat))) + ms.start_number)).length =
        (Int.ceil (pdv / (sd / (ms.timescale : Rat)))).toNat := by
  obtain ⟨sn, ts, tn, s, sdur, med, init, initu, surls⟩ := ms
  dsimp only at h1 h2 h5 h6 h7 h8 h9 ⊢
  subst h1
  subst h2
  subst h5
  subst h6
  subst h7
  refine ⟨?_, by simp⟩
  unfold computeFragments
  dsimp only
  rw [h3]
  simp only [exbind_ok]
  rw [h4]
  simp only [Option.isNone_none, Bool.and_self, if_true]
  unfold modeATotals
  dsimp only
  simp [pyFloatDiv, pyFloatOfOpt, h8, h9]

theorem number_modeA_count_law_witness :
    computeFragments { segment_duration := some 2, media := some "s-$Number$.mp4" } (some "r") (some 1000) (some 10) =
      .ok (some [Fragment.mk "s-1.mp4" false (some (some 2)), Fragment.mk "s-2.mp4" false (some (some 2)), Fragment.mk "s-3.mp4" false (some (some 2)), Fragment.mk "s-4.mp4" false (some (some 2)), Fragment.mk "s-5.mp4" false (some (some 2))]) := by
  have h := (number_modeA_count_law { segment_duration := some 2, media := some "s-$Number$.mp4" } (some "r") (some 1000) 10 "s-$Number$.mp4" "s-%(Number)d.mp4" 2 rfl rfl (by rfl) (by rfl) rfl rfl rfl (by norm_num) (by norm_num)).1
  rw [h]
  dsimp only
  norm_num [Int.ceil_ofNat]
  decide

theorem modeBRepeats_spec (tmpl : String) (isUrl : Bool) (bw : Option Int) (ts d : Int) :
    ∀ (k : Nat) (time num : Int),
      modeBRepeats tmpl isUrl bw ts d k time num =
        (exMapM (emitFragment tmpl isUrl bw ts) (specRepeatTriples d k time num)).bind
          fun fs => .ok (fs, time + (k : Int) * d, num + (k : Int)) := by
  intro k
  induction k with
  | zero =>
    intro time num
    simp [modeBRepeats, specRepeatTriples, exMapM]
  | succ k ih =>
    intro time num
    simp only [modeBRepeats, specRepeatTriples, exMapM_cons, emitFragment]
    rw [ih]
    cases addSegmentUrl tmpl isUrl bw ts (time + d) num d with
    | error e => simp
    | ok f =>
      simp only [exceptBind_eq_bind, exceptbind_ok]
      cases exMapM (emitFragment tmpl isUrl bw ts) (specRepeatTriples d k (time + d) (num + 1)) with
      | error e => simp
      | ok fs =>
        simp only [exceptbind_ok, Except.ok.injEq, Prod.mk.injEq, true_and, List.cons.injEq]
        refine ⟨by push_cast; ring, by push_cast; ring⟩

theorem modeBRun_spec (tmpl : String) (isUrl : Bool) (bw : Option Int) (ts : Int) :
    ∀ (tl : List SegS) (time num : Int),
      modeBRun tmpl isUrl bw ts tl time num =
        exMapM (emitFragment tmpl isUrl bw ts) (specModeBWalk tl time num) := by
  intro tl
  induction tl with
  | nil => intro time num; rfl
  | cons s rest ih =>
    intro time num
    simp only [modeBRun, specModeBWalk]
    rw [exMapM_append, exMapM_cons, modeBRepeats_spec]
    simp only [emitFragment]
    cases addSegmentUrl tmpl isUrl bw ts (if s.t ≠ 0 then s.t else time) num s.d with
    | error e => simp
    | ok f =>
      simp only [exceptBind_eq_bind, exceptbind_ok]
      cases exMapM (emitFragment tmpl isUrl bw ts)
          (specRepeatTriples s.d s.r.toNat (if s.t ≠ 0 then s.t else time) (num + 1)) with
      | error e => simp
      | ok fs =>
        simp only [exceptbind_ok]
        rw [ih]
        have harith : (if s.t ≠ 0 then s.t else time) + (s.r.toNat : Int) * s.d + s.d =
            (if s.t ≠ 0 then s.t else time) + ((s.r.toNat : Int) + 1) * s.d := by ring
        rw [harith]

/-- C1.  Timeline (Mode B) enumeration law: for a merged context with a
media template and a timeline (and no explicit segment URLs, which per the
mode dispatch of source line 198 would select Mode C instead), the
enumerator of source lines 219-249 emits exactly one fragment per
`(segment_time, segment_number, duration)` triple of the specification's
walk `specModeBWalk`: running `segment_time` starts at 0 and
`segment_number` at `start_number`; a non-zero `start_time` becomes the new
`segment_time`; one fragment is emitted per instant, one per repeat after
advancing `segment_time` by the instant's duration, and after the repeats
`segment_time` advances once more; every fragment's duration is
`instant.duration / timescale`.  The witness instantiates the claim's
particular case: timeline `[{t:0,d:4,r:1},{d:4}]` yields exactly the three
start times `[0, 4, 8]`. -/
theorem timeline_modeB_enumeration_law (ms : MSInfo) (rid : Option String) (bw : Option Int)
    (pd : Option Rat) (m : String) (tl : List SegS)
    (h1 : ms.segment_urls = none) (h2 : ms.media = some m) (h3 : ms.s = some tl) :
    computeFragments ms rid bw pd =
      (prepareTemplate ["Number", "Bandwidth", "Time"] rid m).bind fun tmpl =>
        (exMapM (emitFragment tmpl (matchesHttp tmpl) bw ms.timescale)
          (specModeBWalk tl 0 ms.start_number)).bind fun frs => Except.ok (some frs) := by
  obtain ⟨sn, ts, tn, s, sdur, med, init, initu, surls⟩ := ms
  dsimp only at h1 h2 h3 ⊢
  subst h1
  subst h2
  subst h3
  unfold computeFragments
  dsimp only
  cases htm : prepareTemplate ["Number", "Bandwidth", "Time"] rid m with
  | error e => simp
  | ok tmpl =>
    simp only [exbind_ok, exceptbind_ok, exceptBind_eq_bind]
    simp only [Option.isNone_some, Bool.and_false, Bool.false_eq_true, if_false]
    rw [modeBRun_spec]

theorem timeline_modeB_enumeration_law_witness :
    computeFragments { s := some [⟨0, 4, 1⟩, ⟨0, 4, 0⟩], media := some "seg-$Time$.m4s" } (some "r") (some 1000) none =
      .ok (some [Fragment.mk "seg-0.m4s" false (some (some 4)), Fragment.mk "seg-4.m4s" false (some (some 4)), Fragment.mk "seg-8.m4s" false (some (some 4))]) ∧
      (specModeBWalk [⟨0, 4, 1⟩, ⟨0, 4, 0⟩] 0 1).map (fun x => x.1) = [0, 4, 8] := by
  constructor
  · rw [timeline_modeB_enumeration_law { s := some [⟨0, 4, 1⟩, ⟨0, 4, 0⟩], media := some "seg-$Time$.m4s" } (some "r") (some 1000) none "seg-$Time$.m4s" [⟨0, 4, 1⟩, ⟨0, 4, 0⟩] rfl rfl rfl]
    have hp : prepareTemplate ["Number", "Bandwidth", "Time"] (some "r") "seg-$Time$.m4s" = .ok "seg-%(Time)d.m4s" := by decide
    dsimp only
    rw [hp]
    simp only [exceptbind_ok]
    have hw : specModeBWalk [⟨0, 4, 1⟩, ⟨0, 4, 0⟩] 0 1 = [(0, 1, 4), (4, 2, 4), (8, 3, 4)] := by decide
    rw [hw]
    simp only [exMapM, emitFragment, addSegmentUrl, floatOrNone, pyFloatDiv]
    norm_num
    decide
  · decide

theorem all_not_any {α : Type} (l : List α) (p : α → Bool) (h : l.all (fun x => !(p x)) = true) :
    l.any p = false := by
  cases hany : l.any p
  · rfl
  · obtain ⟨x, hx, hpx⟩ := List.any_eq_true.mp hany
    have hx2 := (List.all_eq_true.mp h) x hx
    simp [hpx] at hx2

theorem parseSList_ok_no_missing : ∀ (l : List SRaw) (v : Int × List SegS),
    parseSList l = .ok v → l.all (fun s => s.d.isSome) = true := by
  intro l
  induction l with
  | nil => intro v h; rfl
  | cons s rest ih =>
    intro v h
    unfold parseSList at h
    cases hd : s.d with
    | none =>
      rw [hd] at h
      simp at h
    | some d =>
      rw [hd] at h
      simp only [exceptBind_eq_bind, exceptbind_ok] at h
      cases hrec : parseSList rest with
      | error e => rw [hrec] at h; simp at h
      | ok p => simp [List.all_cons, hd, ih p hrec]

theorem extractCommon_ok_no_missing (src : SegCommon) (ms ms2 : MSInfo)
    (h : extractCommon src ms = .ok ms2) : timelineMissingD src.timeline = false := by
  unfold extractCommon at h
  cases ht : src.timeline with
  | none => simp [timelineMissingD, ht]
  | some l =>
    rw [ht] at h
    cases l with
    | nil => simp [timelineMissingD, ht]
    | cons s rest =>
      dsimp only at h
      cases hp : parseSList (s :: rest) with
      | error e => rw [hp] at h; simp at h
      | ok v =>
        have hall := parseSList_ok_no_missing (s :: rest) v hp
        simp only [List.all_eq_true] at hall
        simp only [timelineMissingD, ht, Option.getD_some]
        cases hany : (s :: rest).any (fun x => x.d.isNone) with
        | false => rfl
        | true =>
          obtain ⟨x, hx, hpx⟩ := List.any_eq_true.mp hany
          have hx2 := hall x hx
          cases hxd : x.d <;> simp [hxd] at hpx hx2

theorem extractMS_ok_not_bad (el : ElementMS) (parent ms2 : MSInfo)
    (h : extractMultisegmentInfo el parent = .ok ms2) : elementBad el = false := by
  unfold extractMultisegmentInfo at h
  cases hsl : el.segment_list with
  | some sl =>
    rw [hsl] at h
    simp only [exceptBind_eq_bind] at h
    cases hc : extractCommon sl.common parent with
    | error e => rw [hc] at h; simp at h
    | ok ms1 => simp [elementBad, hsl, extractCommon_ok_no_missing _ _ _ hc]
  | none =>
    rw [hsl] at h
    cases hst : el.segment_template with
    | none => simp [elementBad, hsl, hst]
    | some st =>
      rw [hst] at h
      simp only [exceptBind_eq_bind] at h
      cases hc : extractCommon st.common parent with
      | error e => rw [hc] at h; simp at h
      | ok ms1 => simp [elementBad, hsl, hst, extractCommon_ok_no_missing _ _ _ hc]

theorem floatOrNone_thousand (v : Option Rat) :
    floatOrNone v 1000 = .ok (v.map fun x => x / 1000) := by
  cases v with
  | none => rfl
  | some x =>
    simp only [floatOrNone, pyFloatDiv, Option.map_some]
    rw [if_neg (by norm_num)]
    rfl

theorem processRepCore_ok_not_bad (ctx : WalkCtx) (doc : MPDDoc) (period : PeriodNode)
    (pdur : Option Rat) (aset : ASetNode) (asetMS : MSInfo) (rep : RepNode)
    (v : Option (Option String × FmtDict))
    (h : processRepCore ctx doc period pdur aset asetMS rep = .ok v)
    (hreach : repReachesExtract aset rep = true) : elementBad rep.ms = false := by
  unfold repReachesExtract at hreach
  simp only [Bool.and_eq_true, Bool.not_eq_true'] at hreach
  obtain ⟨hdrm, hmt⟩ := hreach
  cases hmime : pyLookup (pyUpdate aset.attrib rep.attrib) "mimeType" with
  | none => rw [hmime] at hmt; simp at hmt
  | some m =>
    rw [hmime] at hmt
    simp only [Bool.or_eq_true, decide_eq_true_eq] at hmt
    unfold processRepCore at h
    rw [hdrm] at h
    simp only [Bool.false_eq_true, if_false] at h
    unfold pyRequire at h
    rw [hmime] at h
    simp only [exbind_ok, exceptBind_eq_bind, exceptbind_ok] at h
    have hnotText : ¬ contentTypeOf m = "text" := by
      rcases hmt with hv | hv <;> simp [hv]
    rw [if_neg hnotText] at h
    rw [if_pos (by simp [hmt])] at h
    cases hbase : applyMpdBase ctx.mpd_base_url (resolveBaseUrl [rep.baseURL.map (fun b => b.text), aset.baseURL.map (fun b => b.text), period.baseURL.map (fun b => b.text), doc.baseURL.map (fun b => b.text)]) with
    | error e => rw [hbase] at h; simp at h
    | ok base_url =>
      rw [hbase] at h
      simp only [exceptbind_ok] at h
      rw [floatOrNone_thousand] at h
      simp only [exceptbind_ok] at h
      cases hext : extractMultisegmentInfo rep.ms asetMS with
      | error e => rw [hext] at h; simp at h
      | ok repMS => exact extractMS_ok_not_bad _ _ _ hext

theorem processReps_ok_not_bad (ctx : WalkCtx) (doc : MPDDoc) (period : PeriodNode)
    (pdur : Option Rat) (aset : ASetNode) (asetMS : MSInfo) :
    ∀ (rs : List RepNode) (fd : FormatsDict) (l : List FmtDict),
      (processReps ctx doc period pdur aset asetMS rs fd).1 = .ok l →
      rs.all (fun r => !(repReachesExtract aset r && elementBad r.ms)) = true := by
  intro rs
  induction rs with
  | nil => intro fd l h; rfl
  | cons r rest ih =>
    intro fd l h
    unfold processReps at h
    cases hcore : processRepCore ctx doc period pdur aset asetMS r with
    | error e => rw [hcore] at h; simp at h
    | ok o =>
      rw [hcore] at h
      have hhead : (!(repReachesExtract aset r && elementBad r.ms)) = true := by
        cases hr : repReachesExtract aset r with
        | false => simp
        | true => simp [processRepCore_ok_not_bad ctx doc period pdur aset asetMS r o hcore hr]
      cases o with
      | none =>
        simp only [List.all_cons, Bool.and_eq_true]
        exact ⟨hhead, ih fd l h⟩
      | some p =>
        obtain ⟨rid, f⟩ := p
        dsimp only [mergeFullInfoSt] at h
        cases hrec : processReps ctx doc period pdur aset asetMS rest fd with
        | mk res fd2 =>
          rw [hrec] at h
          cases res with
          | error e => simp at h
          | ok l2 =>
            simp only [List.all_cons, Bool.and_eq_true]
            refine ⟨hhead, ih fd l2 ?_⟩
            rw [hrec]

theorem processASet_ok_not_bad (ctx : WalkCtx) (doc : MPDDoc) (period : PeriodNode)
    (pdur : Option Rat) (periodMS : MSInfo) (aset : ASetNode) (fd : FormatsDict)
    (l : List FmtDict) (h : (processASet ctx doc period pdur periodMS aset fd).1 = .ok l) :
    asetBad aset = false := by
  unfold processASet at h
  cases hdrm : aset.drm with
  | true => simp [asetBad, hdrm]
  | false =>
    rw [hdrm] at h
    simp only [Bool.false_eq_true, if_false] at h
    cases hext : extractMultisegmentInfo aset.ms periodMS with
    | error e => rw [hext] at h; simp at h
    | ok asetMS =>
      rw [hext] at h
      have h1 := extractMS_ok_not_bad _ _ _ hext
      have h2 := processReps_ok_not_bad ctx doc period pdur aset asetMS aset.reps fd l h
      have h3 := all_not_any _ _ h2
      simp [asetBad, hdrm, h1, h3]

theorem processASets_ok_not_bad (ctx : WalkCtx) (doc : MPDDoc) (period : PeriodNode)
    (pdur : Option Rat) (periodMS : MSInfo) :
    ∀ (as : List ASetNode) (fd : FormatsDict) (l : List FmtDict),
      (processASets ctx doc period pdur periodMS as fd).1 = .ok l →
      as.all (fun a => !(asetBad a)) = true := by
  intro as
  induction as with
  | nil => intro fd l h; rfl
  | cons a rest ih =>
    intro fd l h
    unfold processASets at h
    cases hone : processASet ctx doc period pdur periodMS a fd with
    | mk res1 fd1 =>
      rw [hone] at h
      cases res1 with
      | error e => simp at h
      | ok l1 =>
        dsimp only at h
        have hhead : asetBad a = false := by
          apply processASet_ok_not_bad ctx doc period pdur periodMS a fd l1
          rw [hone]
        cases hrec : processASets ctx doc period pdur periodMS rest fd1 with
        | mk res2 fd2 =>
          rw [hrec] at h
          cases res2 with
          | error e => simp at h
          | ok l2 =>
            simp only [List.all_cons, Bool.and_eq_true]
            refine ⟨by simp [hhead], ih fd1 l2 ?_⟩
            rw [hrec]

theorem processPeriod_ok_not_bad (ctx : WalkCtx) (doc : MPDDoc) (mdur : Option Rat)
    (p : PeriodNode) (fd : FormatsDict) (l : List FmtDict)
    (h : (processPeriod ctx doc mdur p fd).1 = .ok l) : periodBad p = false := by
  unfold processPeriod at h
  cases hext : extractMultisegmentInfo p.ms {} with
  | error e => rw [hext] at h; simp at h
  | ok periodMS =>
    rw [hext] at h
    have h1 := extractMS_ok_not_bad _ _ _ hext
    have h2 := processASets_ok_not_bad ctx doc p _ periodMS p.asets fd l h
    have h3 := all_not_any _ _ h2
    simp [periodBad, h1, h3]

theorem processPeriods_ok_not_bad (ctx : WalkCtx) (doc : MPDDoc) (mdur : Option Rat) :
    ∀ (ps : List PeriodNode) (fd : FormatsDict) (l : List FmtDict),
      (processPeriods ctx doc mdur ps fd).1 = .ok l →
      ps.all (fun p => !(periodBad p)) = true := by
  intro ps
  induction ps with
  | nil => intro fd l h; rfl
  | cons p rest ih =>
    intro fd l h
    unfold processPeriods at h
    cases hone : processPeriod ctx doc mdur p fd with
    | mk res1 fd1 =>
      rw [hone] at h
      cases res1 with
      | error e => simp at h
      | ok l1 =>
        dsimp only at h
        have hhead : periodBad p = false := by
          apply processPeriod_ok_not_bad ctx doc mdur p fd l1
          rw [hone]
        cases hrec : processPeriods ctx doc mdur rest fd1 with
        | mk res2 fd2 =>
          rw [hrec] at h
          cases res2 with
          | error e => simp at h
          | ok l2 =>
            simp only [List.all_cons, Bool.and_eq_true]
            refine ⟨by simp [hhead], ih fd1 l2 ?_⟩
            rw [hrec]

theorem parseMPD_ok_no_reached_bad (ctx : WalkCtx) (doc : MPDDoc) (fd : FormatsDict)
    (l : List FmtDict) (h : (parseMPD ctx doc fd).1 = .ok l) : reachedBadS doc = false := by
  unfold parseMPD at h
  have h2 := processPeriods_ok_not_bad ctx doc doc.mediaPresentationDuration doc.periods fd l h
  exact all_not_any _ _ h2

/-- C8 (amended).  For every manifest in which a `SegmentTimeline` with an
`S` entry lacking `@d` sits at a position the walk reads — at Period level,
at a non-DRM AdaptationSet, or at a non-DRM video/audio Representation
inside a non-DRM AdaptationSet — the whole parse aborts with an error that
propagates to the caller, and no format list is returned.  (The claim as
frozen quantifies over every manifest *containing* such an entry; the
counterexample `missing_d_skipped_under_drm` shows a manifest whose only
malformed timeline sits inside a DRM-protected AdaptationSet, which the
walk skips wholesale at source lines 135-136, so that parse succeeds.) -/
theorem missing_d_fatal_when_reached (ctx : WalkCtx) (doc : MPDDoc) (fd : FormatsDict)
    (h : reachedBadS doc = true) : ∃ e, (parseMPD ctx doc fd).1 = .error e := by
  cases hres : (parseMPD ctx doc fd).1 with
  | error e => exact ⟨e, rfl⟩
  | ok l =>
    have hno := parseMPD_ok_no_reached_bad ctx doc fd l hres
    rw [h] at hno
    exact absurd hno (by simp)

theorem missing_d_fatal_when_reached_witness :
    ∃ e, (parseMPD ctx9 doc8reached []).1 = .error e :=
  missing_d_fatal_when_reached ctx9 doc8reached [] (by decide)

/-- C8 counterexample: `doc8drm` contains a `SegmentTimeline` whose `S`
entry lacks `@d` (second conjunct), yet the parse returns a format list
(the empty one) instead of aborting, because the malformed timeline sits
inside a DRM-protected AdaptationSet that is skipped before extraction. -/
theorem missing_d_skipped_under_drm :
    parseMPD ctx9 doc8drm [] = (.ok [], []) ∧
      (doc8drm.periods.any fun p => p.asets.any fun a =>
        match a.ms.segment_template with
        | some st => timelineMissingD st.common.timeline
        | none => false) = true := by
  constructor
  · rfl
  · decide

/-- C9.  Override merge law.  General part: the merged descriptor
`formats_dict.get(rid, {}).copy()` updated with the fresh `f` (source lines
310-311) gives, on every key, the fresh value when `f` defines the key and
the override's value otherwise.  Concrete part: two Representations
sharing `@id="480p"` in different AdaptationSets each produce an
independent descriptor, each merged with the same override entry
independently — the override-only `note` survives in both while each keeps
its own freshly computed `width`. -/
theorem override_merge_law :
    (∀ (fd : FormatsDict) (rid : Option String) (f : FmtDict) (k : String),
      (f.map Prod.fst).Nodup →
        (∀ v, pyLookup f k = some v → pyLookup (mergeFullInfo fd rid f) k = some v) ∧
        (pyLookup f k = none →
          pyLookup (mergeFullInfo fd rid f) k = pyLookup (fdEntry fd rid) k)) ∧
      (parseMPD ctx9 doc9 fd9).1 = .ok [d9a, d9b] := by
  constructor
  · intro fd rid f k hnd
    have h := pyLookup_pyUpdate (fdEntry fd rid) f k hnd
    constructor
    · intro v hv
      unfold mergeFullInfo
      rw [h, hv]
    · intro hv
      unfold mergeFullInfo
      rw [h, hv]
  · decide

theorem override_merge_law_witness :
    pyLookup (mergeFullInfo fd9 (some "480p") [("width", PyVal.int 1)]) "width" =
      some (PyVal.int 1) :=
  (override_merge_law.1 fd9 (some "480p") [("width", PyVal.int 1)] "width" (by simp)).1
    (PyVal.int 1) rfl

theorem processReps_fd_unchanged (ctx : WalkCtx) (doc : MPDDoc) (period : PeriodNode)
    (pdur : Option Rat) (aset : ASetNode) (asetMS : MSInfo) :
    ∀ (rs : List RepNode) (fd : FormatsDict),
      (processReps ctx doc period pdur aset asetMS rs fd).2 = fd := by
  intro rs
  induction rs with
  | nil => intro fd; rfl
  | cons r rest ih =>
    intro fd
    unfold processReps
    cases hcore : processRepCore ctx doc period pdur aset asetMS r with
    | error e => rfl
    | ok o =>
      cases o with
      | none => exact ih fd
      | some p =>
        obtain ⟨rid, f⟩ := p
        dsimp only [mergeFullInfoSt]
        cases hrec : processReps ctx doc period pdur aset asetMS rest fd with
        | mk res fd2 =>
          have h2 : fd2 = fd := by
            have h3 := ih fd
            rw [hrec] at h3
            exact h3
          cases res <;> simp [h2]

theorem processASet_fd_unchanged (ctx : WalkCtx) (doc : MPDDoc) (period : PeriodNode)
    (pdur : Option Rat) (periodMS : MSInfo) (aset : ASetNode) (fd : FormatsDict) :
    (processASet ctx doc period pdur periodMS aset fd).2 = fd := by
  unfold processASet
  cases hdrm : aset.drm with
  | true => simp
  | false =>
    simp only [Bool.false_eq_true, if_false]
    cases hext : extractMultisegmentInfo aset.ms periodMS with
    | error e => rfl
    | ok asetMS => exact processReps_fd_unchanged ctx doc period pdur aset asetMS aset.reps fd

theorem processASets_fd_unchanged (ctx : WalkCtx) (doc : MPDDoc) (period : PeriodNode)
    (pdur : Option Rat) (periodMS : MSInfo) :
    ∀ (as : List ASetNode) (fd : FormatsDict),
      (processASets ctx doc period pdur periodMS as fd).2 = fd := by
  intro as
  induction as with
  | nil => intro fd; rfl
  | cons a rest ih =>
    intro fd
    unfold processASets
    cases hone : processASet ctx doc period pdur periodMS a fd with
    | mk res1 fd1 =>
      have h1 : fd1 = fd := by
        have h3 := processASet_fd_unchanged ctx doc period pdur periodMS a fd
        rw [hone] at h3
        exact h3
      cases res1 with
      | error e => simp [h1]
      | ok l1 =>
        dsimp only
        cases hrec : processASets ctx doc period pdur periodMS rest fd1 with
        | mk res2 fd2 =>
          have h2 : fd2 = fd1 := by
            have h3 := ih fd1
            rw [hrec] at h3
            exact h3
          cases res2 <;> simp [h1, h2]

theorem processPeriod_fd_unchanged (ctx : WalkCtx) (doc : MPDDoc) (mdur : Option Rat)
    (p : PeriodNode) (fd : FormatsDict) : (processPeriod ctx doc mdur p fd).2 = fd := by
  unfold processPeriod
  cases hext : extractMultisegmentInfo p.ms {} with
  | error e => rfl
  | ok periodMS => exact processASets_fd_unchanged ctx doc p _ periodMS p.asets fd

theorem processPeriods_fd_unchanged (ctx : WalkCtx) (doc : MPDDoc) (mdur : Option Rat) :
    ∀ (ps : List PeriodNode) (fd : FormatsDict),
      (processPeriods ctx doc mdur ps fd).2 = fd := by
  intro ps
  induction ps with
  | nil => intro fd; rfl
  | cons p rest ih =>
    intro fd
    unfold processPeriods
    cases hone : processPeriod ctx doc mdur p fd with
    | mk res1 fd1 =>
      have h1 : fd1 = fd := by
        have h3 := processPeriod_fd_unchanged ctx doc mdur p fd
        rw [hone] at h3
        exact h3
      cases res1 with
      | error e => simp [h1]
      | ok l1 =>
        dsimp only
        cases hrec : processPeriods ctx doc mdur rest fd1 with
        | mk res2 fd2 =>
          have h2 : fd2 = fd1 := by
            have h3 := ih fd1
            rw [hrec] at h3
            exact h3
          cases res2 <;> simp [h1, h2]

/-- C10.  The caller-supplied `formats_dict` is never mutated by a parse:
with the dict state threaded explicitly through every walk step, the state
returned alongside the result (whether the parse succeeds or fails) is the
input dict unchanged — the only operation the code ever performs on it is
the read `formats_dict.get(rid, {})`, and the merge operates on a copy of
the entry. -/
theorem formats_dict_unchanged (ctx : WalkCtx) (doc : MPDDoc) (fd : FormatsDict) :
    (parseMPD ctx doc fd).2 = fd :=
  processPeriods_fd_unchanged ctx doc doc.mediaPresentationDuration doc.periods fd
